import Mathlib

/-!
Shallow embedding of the TunesBack Library Snapshot Differential Analytics
Engine (`src/main.py`, class `LibraryAnalytics`, and
`src/listening_age_algorithm.py`).

Modelling conventions:
* Python ints are `Nat` where the source only accumulates non-negative
  counters (play counts, skip counts, millisecond totals), and `Int`/`ℚ`
  where subtraction or division appears (diffs, unit-converted values).
* Python dicts are association lists (`List (k × v)`, keys unique by
  construction of the update operation) when we must iterate over their
  items, or lookup functions `k → Option v` when only lookup is used
  (`master_pid_map`).
* `datetime` values are opaque ordered timestamps, modelled as `Int`.
* A Python `set` of persistent ids is a duplicate-free `List String`
  (insertion skips elements already present).
-/

/-- One value of `master_pid_map`: the track-granularity totals
`{'count': plays, 'time': play_ms, 'skip': skips}` recorded in
`LibraryAnalytics.parse_xml`. -/
structure PidStats where
  count : Nat
  time : Nat
  skip : Nat
deriving Repr, DecidableEq

/-- The `EntityStats` dataclass of `src/main.py`. -/
structure EntityStats where
  count : Nat := 0
  time : Nat := 0
  skip : Nat := 0
  added : Option Int := none
  location : Option String := none
  year : Option Nat := none
  pids : List String := []
deriving Repr, DecidableEq

/-- One track record as consumed by `LibraryAnalytics.parse_xml` from the
external parser.  String fields that Python treats as falsy when empty or
missing are `Option String` with `none` for the falsy case; `year` is `Nat`
with `0` standing for a missing/zero year (Python truthiness). -/
structure TrackRecord where
  podcast : Bool := false
  movie : Bool := false
  has_video : Bool := false
  play_count : Nat := 0
  skip_count : Nat := 0
  length : Nat := 0
  artist : Option String := none
  album_artist : Option String := none
  album : Option String := none
  name : Option String := none
  genre : Option String := none
  year : Nat := 0
  persistent_id : Option String := none
  date_added : Option Int := none
  location : Option String := none
deriving Repr, DecidableEq

/-- The `LibraryData` dataclass: five aggregation maps, the master
persistent-id map and the total play time.  Maps that `process_stats`
iterates over are association lists; `master_pid_map` is a lookup
function. -/
structure LibraryData where
  artists : List (String × EntityStats) := []
  albums : List ((String × String) × EntityStats) := []
  songs : List ((String × String) × EntityStats) := []
  genres : List (String × EntityStats) := []
  years : List (Nat × EntityStats) := []
  master_pid_map : String → Option PidStats := fun _ => none
  total_time : Nat := 0

/-- `LibraryAnalytics.split_artists`: replace `,` and `&` by `|`, split,
trim, drop empty fragments, defaulting to `["Unknown"]`. -/
def split_artists (artist_str : Option String) : List String :=
  match artist_str with
  | none => ["Unknown"]
  | some s =>
    if s = "" then ["Unknown"]
    else
      let temp := s.map fun c => if c = ',' ∨ c = '&' then '|' else c
      let parts := ((temp.split (fun c => c = '|')).map String.trim).filter
        (fun p => p ≠ "")
      if parts = [] then ["Unknown"] else parts

/-- `LibraryAnalytics._update_stat`: fold one track's contribution into an
`EntityStats` accumulator. -/
def updateStat (plays play_ms skips : Nat) (pid : Option String)
    (location : Option String) (date_added : Option Int) (year : Nat)
    (s : EntityStats) : EntityStats :=
  { count := s.count + plays,
    time := s.time + play_ms,
    skip := s.skip + skips,
    location := match location with
      | some loc => if s.location = none ∨ 0 < plays then some loc
          else s.location
      | none => s.location,
    added := match date_added with
      | some d => some d
      | none => s.added,
    year := if year ≠ 0 then some year else s.year,
    pids := match pid with
      | some p => if p ∈ s.pids then s.pids else s.pids ++ [p]
      | none => s.pids }

/-- Get-or-default update of a `defaultdict(EntityStats)`: apply `f` to the
entry at `k`, materialising a default `EntityStats` first when absent. -/
def updateAssoc {K : Type} [DecidableEq K] (m : List (K × EntityStats))
    (k : K) (f : EntityStats → EntityStats) : List (K × EntityStats) :=
  match m with
  | [] => [(k, f {})]
  | (k', v) :: rest =>
    if k = k' then (k', f v) :: rest else (k', v) :: updateAssoc rest k f

/-- Dict lookup (`d.get(key)`): first matching key of the association
list. -/
def lookupAssoc {K V : Type} [DecidableEq K] (m : List (K × V)) (k : K) :
    Option V :=
  match m with
  | [] => none
  | (k', v) :: rest => if k = k' then some v else lookupAssoc rest k

/-- The per-track body of the parse loop of `LibraryAnalytics.parse_xml`:
skip podcast/movie/video tracks and tracks with no plays, no skips and no
date-added; otherwise update `total_time`, `master_pid_map` and the five
aggregation maps. -/
def foldTrack (d : LibraryData) (t : TrackRecord) : LibraryData :=
  if t.podcast ∨ t.movie ∨ t.has_video then d
  else if t.play_count = 0 ∧ t.skip_count = 0 ∧ t.date_added = none then d
  else
    let plays := t.play_count
    let skips := t.skip_count
    let play_ms := plays * t.length
    let raw_artist := t.artist.getD "Unknown"
    let album_artist := t.album_artist.getD raw_artist
    let album := t.album.getD "Unknown"
    let song_name := t.name.getD "Unknown"
    let upd := updateStat plays play_ms skips t.persistent_id t.location
      t.date_added t.year
    { total_time := d.total_time + play_ms,
      master_pid_map := match t.persistent_id with
        | some p => fun q => if q = p
            then some (PidStats.mk plays play_ms skips)
            else d.master_pid_map q
        | none => d.master_pid_map,
      songs := updateAssoc d.songs (song_name, raw_artist) upd,
      albums := updateAssoc d.albums (album, album_artist) upd,
      artists := (split_artists t.artist).foldl
        (fun m a => updateAssoc m a upd) d.artists,
      genres := match t.genre with
        | some g => updateAssoc d.genres g upd
        | none => d.genres,
      years := if 1900 < t.year then updateAssoc d.years t.year upd
        else d.years }

/-- `LibraryAnalytics.parse_xml` restricted to its aggregation content: fold
an ordered collection of track records into a `LibraryData`. -/
def buildLibrary (tracks : List TrackRecord) : LibraryData :=
  tracks.foldl foldTrack {}

/-- Recovered old play count on the PID-fallback path of
`LibraryAnalytics.calculate_diff`: sum of `old_master_map[pid]['count']`
over the new entity's persistent ids that are present in the map. -/
def pidSumCount (om : String → Option PidStats) (pids : List String) : Nat :=
  pids.foldl (fun a q => match om q with | some d => a + d.count | none => a) 0

/-- Recovered old play time on the PID-fallback path. -/
def pidSumTime (om : String → Option PidStats) (pids : List String) : Nat :=
  pids.foldl (fun a q => match om q with | some d => a + d.time | none => a) 0

/-- Recovered old skip count on the PID-fallback path. -/
def pidSumSkip (om : String → Option PidStats) (pids : List String) : Nat :=
  pids.foldl (fun a q => match om q with | some d => a + d.skip | none => a) 0

/-- The record returned by `LibraryAnalytics.calculate_diff`. -/
structure DiffResult where
  diff_time : Int
  diff_count : Int
  diff_skip : Int
  old_count_ref : Nat
  has_id_match : Bool
deriving Repr, DecidableEq

/-- `LibraryAnalytics.calculate_diff`: direct entity-level subtraction when
an old entity with the same key exists, otherwise the PID fallback summing
the old `master_pid_map` over the new entity's persistent ids. -/
def calculate_diff (new_stats : EntityStats)
    (old_master_map : String → Option PidStats)
    (old_entity_stats : Option EntityStats) : DiffResult :=
  let old_count : Nat := match old_entity_stats with
    | some o => o.count
    | none => pidSumCount old_master_map new_stats.pids
  let old_time : Nat := match old_entity_stats with
    | some o => o.time
    | none => pidSumTime old_master_map new_stats.pids
  let old_skip : Nat := match old_entity_stats with
    | some o => o.skip
    | none => pidSumSkip old_master_map new_stats.pids
  { diff_time := (new_stats.time : Int) - old_time,
    diff_count := (new_stats.count : Int) - old_count,
    diff_skip := (new_stats.skip : Int) - old_skip,
    old_count_ref := old_count,
    has_id_match := decide (0 < old_count) }

/-- One row of a ranked table as assembled in
`LibraryAnalytics.process_stats._process_category`: `Value` (time diff in
the chosen unit, or the raw skip diff for the skipped table), `Count`,
`Location`, and the label field(s), kept here as the entity key. -/
structure Row (K : Type) where
  value : ℚ
  count : Int
  location : Option String
  key : K
deriving Repr, DecidableEq

/-- The diff computed for one entity inside `_process_category`:
`cls.calculate_diff(stats, old_master, old_category_dict.get(key) if
old_category_dict else None)`. -/
def diffFor {K : Type} [DecidableEq K] (om : String → Option PidStats)
    (old_dict : Option (List (K × EntityStats))) (k : K)
    (stats : EntityStats) : DiffResult :=
  calculate_diff stats om (match old_dict with
    | some d => lookupAssoc d k
    | none => none)

/-- The `row` dict built for one entity in `_process_category`. -/
def mkRow {K : Type} (divisor : ℚ) (k : K) (stats : EntityStats)
    (d : DiffResult) : Row K :=
  { value := (d.diff_time : ℚ) / divisor,
    count := d.diff_count,
    location := stats.location,
    key := k }

/-- The ranked table produced by `_process_category` for one category: one
row per entity, in iteration order, kept exactly when `diff_time > 0`. -/
def rankedRows {K : Type} [DecidableEq K]
    (category_dict : List (K × EntityStats))
    (old_dict : Option (List (K × EntityStats)))
    (om : String → Option PidStats) (divisor : ℚ) : List (Row K) :=
  category_dict.filterMap fun p =>
    let d := diffFor om old_dict p.1 p.2
    if 0 < d.diff_time then some (mkRow divisor p.1 p.2 d) else none

/-- The skipped table (`results['skip']`), produced only for the song
category: a copy of the row with `Value` replaced by the skip diff, kept
exactly when `diff_skip > 0`. -/
def skipRows {K : Type} [DecidableEq K]
    (category_dict : List (K × EntityStats))
    (old_dict : Option (List (K × EntityStats)))
    (om : String → Option PidStats) (divisor : ℚ) : List (Row K) :=
  category_dict.filterMap fun p =>
    let d := diffFor om old_dict p.1 p.2
    if 0 < d.diff_skip
    then some { mkRow divisor p.1 p.2 d with value := (d.diff_skip : ℚ) }
    else none

/-- The `is_new` decision of `_process_category`: when both a cutoff date
and a date-added are available, newness requires `added > start_date` and
no id match; otherwise it requires `old_count_ref == 0` and no id match. -/
def isNewSong (start_date : Option Int) (added : Option Int)
    (d : DiffResult) : Bool :=
  match start_date, added with
  | some s, some a => decide (s < a) && !d.has_id_match
  | _, _ => decide (d.old_count_ref = 0) && !d.has_id_match

/-- The new-finds table (`results['new']`), produced only for the song
category: the row is kept exactly when `diff_count > 0` and `is_new`. -/
def newRows {K : Type} [DecidableEq K]
    (category_dict : List (K × EntityStats))
    (old_dict : Option (List (K × EntityStats)))
    (om : String → Option PidStats) (divisor : ℚ)
    (start_date : Option Int) : List (Row K) :=
  category_dict.filterMap fun p =>
    let d := diffFor om old_dict p.1 p.2
    if 0 < d.diff_count ∧ isNewSong start_date p.2.added d = true
    then some (mkRow divisor p.1 p.2 d) else none

/-- The time unit selector of `process_stats` (`Theme.UNIT_*`). -/
inductive TimeUnit
  | hours
  | minutes
  | days
deriving Repr, DecidableEq

/-- The millisecond divisor for each unit (`Theme.MS_TO_HOURS = 3.6e6`,
`Theme.MS_TO_MINS = 60000`, `Theme.MS_TO_DAYS = 8.64e7`). -/
def divisorOf : TimeUnit → ℚ
  | .hours => 3600000
  | .minutes => 60000
  | .days => 86400000

/-- Count-descending comparison used to rank genre rows
(`sort_values('Count', ascending=False)`). -/
def countGE {K : Type} (a b : Row K) : Prop := b.count ≤ a.count

instance {K : Type} : DecidableRel (countGE (K := K)) :=
  fun a b => inferInstanceAs (Decidable (b.count ≤ a.count))

/-- The genre table sorted by `Count` descending.  The source sorts with
pandas (tie order among equal counts unspecified); the model fixes ties
with a stable insertion sort. -/
def sortByCountDesc {K : Type} (l : List (Row K)) : List (Row K) :=
  List.insertionSort countGE l

/-- The year → play-count series `process_stats` hands to the listening-age
estimator: `{y: stats.count for y, stats in new_lib.years.items() if
stats.count > 0}`. -/
def playsPerYearOf (nl : LibraryData) : List (Int × Nat) :=
  nl.years.filterMap fun p =>
    if 0 < p.2.count then some ((p.1 : Int), p.2.count) else none

/-- The tuple returned by `LibraryAnalytics.process_stats`, as a record. -/
structure StatsResult where
  diff_total : ℚ
  diff_plays : Int
  art : List (Row String)
  alb : List (Row (String × String))
  song : List (Row (String × String))
  gen : List (Row String)
  year_rows : List (Row Nat)
  new_rows : List (Row (String × String))
  skip_rows : List (Row (String × String))
  top_genres : List String
  age : Int

/-- The old master map used by `process_stats`
(`old_lib.master_pid_map if old_lib else {}`). -/
def omOf (ol : Option LibraryData) : String → Option PidStats :=
  match ol with
  | some o => o.master_pid_map
  | none => fun _ => none

/-- `d.get(k)` against the optional old snapshot's category map
(`old_category_dict.get(key) if old_category_dict else None`): `none`
stands for "no old snapshot". -/
def oldDictOf {K : Type} (ol : Option LibraryData)
    (proj : LibraryData → List (K × EntityStats)) :
    Option (List (K × EntityStats)) :=
  match ol with
  | some o => some (proj o)
  | none => none

/-- `sum(s.count for s in lib.songs.values())`. -/
def totalPlays (songs : List ((String × String) × EntityStats)) : Nat :=
  (songs.map fun p => p.2.count).sum

/-- `valid_data.get(y, 0)` in `calculate_listening_age`: the play count
recorded for year `y`, zero when absent. -/
def getCount (l : List (Int × Nat)) (y : Int) : Nat :=
  match l.find? (fun p => p.1 = y) with
  | some p => p.2
  | none => 0

/-- The window sum of `calculate_listening_age`: plays over
`[start_year, start_year + 4]`, missing years counting zero. -/
def windowSum (l : List (Int × Nat)) (start_year : Int) : Nat :=
  (List.range 5).foldl (fun acc i => acc + getCount l (start_year + i)) 0

/-- `min(valid_data.keys())` of a nonempty association list (0 on `[]`,
unused there). -/
def keyMin (l : List (Int × Nat)) : Int :=
  match l with
  | [] => 0
  | p :: rest => rest.foldl (fun m q => min m q.1) p.1

/-- `max(valid_data.keys())` of a nonempty association list. -/
def keyMax (l : List (Int × Nat)) : Int :=
  match l with
  | [] => 0
  | p :: rest => rest.foldl (fun m q => max m q.1) p.1

/-- One step of the peak-era scan: replace the incumbent
`(max_play_count, best_start_year)` only on a strictly greater window
sum. -/
def scanStep (l : List (Int × Nat)) (best : Nat × Int) (y : Int) :
    Nat × Int :=
  let s := windowSum l y
  if best.1 < s then (s, y) else best

/-- Fold of `scanStep` over the first `n` candidate start years
`min_year, min_year + 1, …`, starting from
`max_play_count = 0, best_start_year = min_year`. -/
def scanAux (l : List (Int × Nat)) (min_year : Int) (n : Nat) : Nat × Int :=
  ((List.range n).map (fun (i : Nat) => min_year + (i : Int))).foldl
    (scanStep l) (0, min_year)

/-- The moving-window scan of `calculate_listening_age`:
`for start_year in range(min_year, max_year + 1)` starting from
`max_play_count = 0, best_start_year = min_year`. -/
def bestScan (l : List (Int × Nat)) (min_year max_year : Int) : Nat × Int :=
  scanAux l min_year ((max_year + 1 - min_year).toNat)

/-- The year filter of `calculate_listening_age`:
`{y: c for y, c in plays_per_year.items() if 1900 < y <= current_year + 1}`. -/
def validData (plays_per_year : List (Int × Nat)) (current_year : Int) :
    List (Int × Nat) :=
  plays_per_year.filter fun p => 1900 < p.1 ∧ p.1 ≤ current_year + 1

/-- `calculate_listening_age` of `src/listening_age_algorithm.py`, with the
`current_year` argument always supplied (the `datetime.now()` default is
the caller's concern). -/
def calculate_listening_age (plays_per_year : List (Int × Nat))
    (current_year : Int) : Int :=
  if plays_per_year = [] then 0
  else
    let valid := validData plays_per_year current_year
    if valid = [] then 0
    else
      let min_year := keyMin valid
      let max_year := keyMax valid
      let best := bestScan valid min_year max_year
      let center_era_year := best.2 + 2
      let musical_birth_year := center_era_year - 18
      current_year - musical_birth_year

/-- `LibraryAnalytics.process_stats`: unit selection, total diffs, the five
ranked tables, the skipped and new-finds tables, the top genre names and
the listening age. -/
def processStats (nl : LibraryData) (ol : Option LibraryData)
    (start_date : Option Int) (unit : TimeUnit) (current_year : Int) :
    StatsResult :=
  let divisor := divisorOf unit
  let om := omOf ol
  let old_total_time : Nat := match ol with
    | some o => o.total_time
    | none => 0
  let gen_rows := rankedRows nl.genres (oldDictOf ol LibraryData.genres) om
    divisor
  { diff_total := (((nl.total_time : Int) - old_total_time : Int) : ℚ) / divisor,
    diff_plays := (totalPlays nl.songs : Int) -
      (match ol with | some o => totalPlays o.songs | none => 0),
    art := rankedRows nl.artists (oldDictOf ol LibraryData.artists) om divisor,
    alb := rankedRows nl.albums (oldDictOf ol LibraryData.albums) om divisor,
    song := rankedRows nl.songs (oldDictOf ol LibraryData.songs) om divisor,
    gen := gen_rows,
    year_rows := rankedRows nl.years (oldDictOf ol LibraryData.years) om
      divisor,
    new_rows := newRows nl.songs (oldDictOf ol LibraryData.songs) om divisor
      start_date,
    skip_rows := skipRows nl.songs (oldDictOf ol LibraryData.songs) om
      divisor,
    top_genres := ((sortByCountDesc gen_rows).take 10).map Row.key,
    age := calculate_listening_age (playsPerYearOf nl) current_year }

/-- The play count `calculate_diff`'s fallback recovers for one persistent
id: `old_master_map[pid]['count']`, zero when the id is absent. -/
def countOf (om : String → Option PidStats) (q : String) : Nat :=
  match om q with
  | some d => d.count
  | none => 0

/-- Aggregation invariant tying one entity to the master pid map: the
track-level play counts recorded for its persistent ids sum to at most its
own play count, and each of its persistent ids is a key of the map. -/
def entityPidInv (master : String → Option PidStats) (s : EntityStats) :
    Prop :=
  pidSumCount master s.pids ≤ s.count ∧ ∀ q ∈ s.pids, master q ≠ none

/-- `entityPidInv` for every entry of one aggregation map. -/
def mapPidInv {K : Type} (master : String → Option PidStats)
    (m : List (K × EntityStats)) : Prop :=
  ∀ p ∈ m, entityPidInv master p.2

/-- `mapPidInv` for all five aggregation maps of a library. -/
def libPidInv (d : LibraryData) : Prop :=
  mapPidInv d.master_pid_map d.artists ∧
  mapPidInv d.master_pid_map d.albums ∧
  mapPidInv d.master_pid_map d.songs ∧
  mapPidInv d.master_pid_map d.genres ∧
  mapPidInv d.master_pid_map d.years

/-- A start year is the earliest maximiser of the 5-year window sum over
the scanned range (the peak era the spec describes for
`calculate_listening_age`). -/
def IsEarliestPeak (valid : List (Int × Nat)) (b : Int) : Prop :=
  keyMin valid ≤ b ∧ b ≤ keyMax valid ∧
  (∀ y : Int, keyMin valid ≤ y → y ≤ keyMax valid →
    windowSum valid y ≤ windowSum valid b) ∧
  (∀ y : Int, keyMin valid ≤ y → y < b →
    windowSum valid y < windowSum valid b)

/-- Modelled from the spec (§4.4): the series claim C3 says `process_stats`
hands to the listening-age estimator — the per-year play-count delta
between the two snapshots, filtered to entries with delta `> 0`.  Stated
here only to compare with `playsPerYearOf`, which is what the source
actually passes. -/
def specDiffedYearSeries (nl : LibraryData) (ol : Option LibraryData) :
    List (Int × Nat) :=
  nl.years.filterMap fun p =>
    let d := diffFor (omOf ol) (oldDictOf ol LibraryData.years) p.1 p.2
    if 0 < d.diff_count then some ((p.1 : Int), d.diff_count.toNat)
    else none

/-- The new-find condition exactly as claim C2 states it: (a) a cutoff is
supplied, the date-added is strictly after it and there is no id match, or
(b) no cutoff is available, `old_count_ref = 0` and there is no id
match. -/
def claimC2NewFind (sd added : Option Int) (old_count_ref : Nat)
    (has_id : Bool) (diff_count : Int) : Prop :=
  0 < diff_count ∧
    (((∃ s, sd = some s ∧ ∃ a, added = some a ∧ s < a) ∧ has_id = false) ∨
     (sd = none ∧ old_count_ref = 0 ∧ has_id = false))

instance {K : Type} : IsTotal (Row K) countGE :=
  ⟨fun a b => (Int.le_total b.count a.count).imp (fun h => h) (fun h => h)⟩

instance {K : Type} : IsTrans (Row K) countGE :=
  ⟨fun _ _ _ hab hbc => le_trans hbc hab⟩

/-- Concrete song stats for the C2 counterexample: three plays, no
date-added, no persistent ids. -/
def c2St : EntityStats :=
  { count := 3, time := 3000, added := none, pids := [] }

/-- Concrete library for the C2 counterexample. -/
def c2Lib : LibraryData :=
  { songs := [(("S", "A"), c2St)] }

/-- New snapshot for the C3 counterexample: one release year with plays. -/
def c3New : LibraryData :=
  { years := [(2010, { count := 100, time := 100 })] }

/-- Old snapshot for the C3 counterexample: identical play history, so the
per-year play-count delta is zero everywhere. -/
def c3Old : LibraryData :=
  { years := [(2010, { count := 100, time := 100 })] }

/-- Library with six genres with positive play-time growth, for the C4
counterexample. -/
def c4Lib : LibraryData :=
  { genres := [("G1", { count := 1, time := 10 }),
               ("G2", { count := 2, time := 10 }),
               ("G3", { count := 3, time := 10 }),
               ("G4", { count := 4, time := 10 }),
               ("G5", { count := 5, time := 10 }),
               ("G6", { count := 6, time := 10 })] }

/-- New-snapshot song stats for C10: skips grew, play time did not. -/
def c10SongS : EntityStats := { count := 2, time := 100, skip := 3 }

/-- New-snapshot song stats for C10: plays grew with zero track length, so
the play-time delta is zero. -/
def c10SongT : EntityStats := { count := 3, time := 0 }

/-- New snapshot for the C10 theorem. -/
def c10New : LibraryData :=
  { songs := [(("S", "A"), c10SongS), (("T", "B"), c10SongT)] }

/-- Old snapshot for the C10 theorem: same play time for `("S","A")`, fewer
skips, and no entry for `("T","B")`. -/
def c10Old : LibraryData :=
  { songs := [(("S", "A"), { count := 2, time := 100, skip := 1 })] }

theorem pidSumCount_eq_sum (om : String → Option PidStats)
    (pids : List String) :
    pidSumCount om pids = (pids.map (countOf om)).sum := by
  suffices h : ∀ (l : List String) (a : Nat),
      l.foldl (fun a q => match om q with | some d => a + d.count | none => a)
        a = a + (l.map (countOf om)).sum by
    simpa using h pids 0
  intro l
  induction l with
  | nil => intro a; simp
  | cons q rest ih =>
    intro a
    have hq : (match om q with | some d => a + d.count | none => a) =
        a + countOf om q := by
      unfold countOf; cases om q <;> simp
    simp only [List.foldl_cons, hq, ih, List.map_cons, List.sum_cons]
    rw [Nat.add_assoc]

theorem pidSumTime_eq_sum (om : String → Option PidStats)
    (pids : List String) :
    pidSumTime om pids =
      (pids.map (fun q => match om q with
        | some d => d.time
        | none => 0)).sum := by
  suffices h : ∀ (l : List String) (a : Nat),
      l.foldl (fun a q => match om q with | some d => a + d.time | none => a)
        a = a + (l.map (fun q => match om q with
          | some d => d.time
          | none => 0)).sum by
    simpa using h pids 0
  intro l
  induction l with
  | nil => intro a; simp
  | cons q rest ih =>
    intro a
    have hq : (match om q with | some d => a + d.time | none => a) =
        a + (match om q with | some d => d.time | none => 0) := by
      cases om q <;> simp
    simp only [List.foldl_cons, hq, ih, List.map_cons, List.sum_cons]
    rw [Nat.add_assoc]

theorem pidSumSkip_eq_sum (om : String → Option PidStats)
    (pids : List String) :
    pidSumSkip om pids =
      (pids.map (fun q => match om q with
        | some d => d.skip
        | none => 0)).sum := by
  suffices h : ∀ (l : List String) (a : Nat),
      l.foldl (fun a q => match om q with | some d => a + d.skip | none => a)
        a = a + (l.map (fun q => match om q with
          | some d => d.skip
          | none => 0)).sum by
    simpa using h pids 0
  intro l
  induction l with
  | nil => intro a; simp
  | cons q rest ih =>
    intro a
    have hq : (match om q with | some d => a + d.skip | none => a) =
        a + (match om q with | some d => d.skip | none => 0) := by
      cases om q <;> simp
    simp only [List.foldl_cons, hq, ih, List.map_cons, List.sum_cons]
    rw [Nat.add_assoc]

theorem pidSumCount_pos_iff (om : String → Option PidStats)
    (pids : List String) :
    0 < pidSumCount om pids ↔ ∃ q ∈ pids, 0 < countOf om q := by
  rw [pidSumCount_eq_sum]
  constructor
  · intro h
    by_contra hc
    push_neg at hc
    have : (pids.map (countOf om)).sum = 0 := by
      apply List.sum_eq_zero
      intro x hx
      rcases List.mem_map.mp hx with ⟨q, hq, rfl⟩
      exact Nat.le_zero.mp (hc q hq)
    omega
  · rintro ⟨q, hq, hpos⟩
    calc 0 < countOf om q := hpos
    _ ≤ (pids.map (countOf om)).sum :=
      List.single_le_sum (by simp) _ (List.mem_map_of_mem _ hq)

/-- Counterexample to claim C1: `calculate_diff` sets `has_id_match` from
`old_count > 0` on **both** strategies, so a diff resolved by a direct
entity-key match (old entity supplied, here with 5 plays) still reports
`has_id_match = true`, while the claim says the flag is false whenever the
diff was resolved by a direct match. -/
theorem C1_counterexample :
    (calculate_diff { count := 7 } (fun _ => none)
      (some { count := 5 })).has_id_match = true := by
  rfl

/-- C1 (amended): `has_id_match` is true iff `old_count_ref` is nonzero.
On the PID-fallback path (no old entity with the same key) this holds iff
at least one persistent id of the new entity has a nonzero recovered play
count in the old snapshot's `master_pid_map`; on the direct-match path it
holds iff the old entity's play count is nonzero — it is not always false
there. -/
theorem C1_has_id_match_amended (ns : EntityStats)
    (om : String → Option PidStats) (oe : Option EntityStats) :
    ((calculate_diff ns om oe).has_id_match =
      decide (0 < (calculate_diff ns om oe).old_count_ref)) ∧
    (oe = none →
      ((calculate_diff ns om oe).has_id_match = true ↔
        ∃ q ∈ ns.pids, 0 < countOf om q)) ∧
    (∀ o, oe = some o →
      ((calculate_diff ns om oe).has_id_match = true ↔ 0 < o.count)) := by
  refine ⟨by cases oe <;> rfl, ?_, ?_⟩
  · rintro rfl
    simp only [calculate_diff, decide_eq_true_eq]
    exact pidSumCount_pos_iff om ns.pids
  · rintro o rfl
    simp [calculate_diff]

theorem C1_has_id_match_amended_witness :
    (calculate_diff { count := 4, pids := ["w1"] }
        (fun q => if q = "w1" then some ⟨2, 20, 0⟩ else none)
        none).has_id_match = true ↔
      ∃ q ∈ ({ count := 4, pids := ["w1"] } : EntityStats).pids,
        0 < countOf (fun q => if q = "w1" then some ⟨2, 20, 0⟩ else none) q :=
  (C1_has_id_match_amended { count := 4, pids := ["w1"] }
    (fun q => if q = "w1" then some ⟨2, 20, 0⟩ else none) none).2.1 rfl

/-- C8: when the old entity's totals coincide with the sums the PID
fallback recovers from the old `master_pid_map` over the new entity's
persistent ids (stable ids and stable grouping key), `calculate_diff`
returns the same `diff_time`, `diff_count` and `diff_skip` whether the old
entity is supplied (direct match) or absent (PID fallback). -/
theorem C8_path_independence (ns : EntityStats)
    (om : String → Option PidStats) (o : EntityStats)
    (hc : o.count = pidSumCount om ns.pids)
    (ht : o.time = pidSumTime om ns.pids)
    (hs : o.skip = pidSumSkip om ns.pids) :
    (calculate_diff ns om (some o)).diff_time =
      (calculate_diff ns om none).diff_time ∧
    (calculate_diff ns om (some o)).diff_count =
      (calculate_diff ns om none).diff_count ∧
    (calculate_diff ns om (some o)).diff_skip =
      (calculate_diff ns om none).diff_skip := by
  simp [calculate_diff, hc, ht, hs]

theorem C8_path_independence_witness :
    (calculate_diff { count := 4, time := 40, skip := 2, pids := ["p1", "p2"] }
        (fun q => if q = "p1" then some ⟨1, 10, 0⟩ else
          if q = "p2" then some ⟨2, 5, 1⟩ else none)
        (some { count := 3, time := 15, skip := 1 })).diff_time =
      (calculate_diff { count := 4, time := 40, skip := 2, pids := ["p1", "p2"] }
        (fun q => if q = "p1" then some ⟨1, 10, 0⟩ else
          if q = "p2" then some ⟨2, 5, 1⟩ else none) none).diff_time ∧
    (calculate_diff { count := 4, time := 40, skip := 2, pids := ["p1", "p2"] }
        (fun q => if q = "p1" then some ⟨1, 10, 0⟩ else
          if q = "p2" then some ⟨2, 5, 1⟩ else none)
        (some { count := 3, time := 15, skip := 1 })).diff_count =
      (calculate_diff { count := 4, time := 40, skip := 2, pids := ["p1", "p2"] }
        (fun q => if q = "p1" then some ⟨1, 10, 0⟩ else
          if q = "p2" then some ⟨2, 5, 1⟩ else none) none).diff_count ∧
    (calculate_diff { count := 4, time := 40, skip := 2, pids := ["p1", "p2"] }
        (fun q => if q = "p1" then some ⟨1, 10, 0⟩ else
          if q = "p2" then some ⟨2, 5, 1⟩ else none)
        (some { count := 3, time := 15, skip := 1 })).diff_skip =
      (calculate_diff { count := 4, time := 40, skip := 2, pids := ["p1", "p2"] }
        (fun q => if q = "p1" then some ⟨1, 10, 0⟩ else
          if q = "p2" then some ⟨2, 5, 1⟩ else none) none).diff_skip :=
  C8_path_independence _ _ _ (by decide) (by decide) (by decide)

theorem foldlMin_le_init :
    ∀ (l : List (Int × Nat)) (a : Int),
      l.foldl (fun m q => min m q.1) a ≤ a := by
  intro l
  induction l with
  | nil => intro a; simp
  | cons q rest ih =>
    intro a
    calc (q :: rest).foldl (fun m q => min m q.1) a
        = rest.foldl (fun m q => min m q.1) (min a q.1) := rfl
      _ ≤ min a q.1 := ih _
      _ ≤ a := min_le_left _ _

theorem foldlMin_le_mem :
    ∀ (l : List (Int × Nat)) (a : Int) (p : Int × Nat), p ∈ l →
      l.foldl (fun m q => min m q.1) a ≤ p.1 := by
  intro l
  induction l with
  | nil => intro a p hp; cases hp
  | cons q rest ih =>
    intro a p hp
    rcases List.mem_cons.mp hp with rfl | hp
    · calc (p :: rest).foldl (fun m q => min m q.1) a
          = rest.foldl (fun m q => min m q.1) (min a p.1) := rfl
        _ ≤ min a p.1 := foldlMin_le_init _ _
        _ ≤ p.1 := min_le_right _ _
    · exact ih _ p hp

theorem foldlMin_attained :
    ∀ (l : List (Int × Nat)) (a : Int),
      l.foldl (fun m q => min m q.1) a = a ∨
        ∃ p ∈ l, l.foldl (fun m q => min m q.1) a = p.1 := by
  intro l
  induction l with
  | nil => intro a; left; rfl
  | cons q rest ih =>
    intro a
    have hstep : (q :: rest).foldl (fun m q => min m q.1) a =
        rest.foldl (fun m q => min m q.1) (min a q.1) := rfl
    rcases ih (min a q.1) with h | ⟨p, hp, h⟩
    · rcases min_cases a q.1 with ⟨hmin, _⟩ | ⟨hmin, _⟩
      · left; rw [hstep, h, hmin]
      · right; exact ⟨q, List.mem_cons_self _ _, by rw [hstep, h, hmin]⟩
    · right; exact ⟨p, List.mem_cons_of_mem _ hp, by rw [hstep, h]⟩

theorem foldlMax_init_le :
    ∀ (l : List (Int × Nat)) (a : Int),
      a ≤ l.foldl (fun m q => max m q.1) a := by
  intro l
  induction l with
  | nil => intro a; simp
  | cons q rest ih =>
    intro a
    calc a ≤ max a q.1 := le_max_left _ _
      _ ≤ rest.foldl (fun m q => max m q.1) (max a q.1) := ih _
      _ = (q :: rest).foldl (fun m q => max m q.1) a := rfl

theorem foldlMax_mem_le :
    ∀ (l : List (Int × Nat)) (a : Int) (p : Int × Nat), p ∈ l →
      p.1 ≤ l.foldl (fun m q => max m q.1) a := by
  intro l
  induction l with
  | nil => intro a p hp; cases hp
  | cons q rest ih =>
    intro a p hp
    rcases List.mem_cons.mp hp with rfl | hp
    · calc p.1 ≤ max a p.1 := le_max_right _ _
        _ ≤ rest.foldl (fun m q => max m q.1) (max a p.1) :=
          foldlMax_init_le _ _
        _ = (p :: rest).foldl (fun m q => max m q.1) a := rfl
    · exact ih _ p hp

theorem foldlMax_attained :
    ∀ (l : List (Int × Nat)) (a : Int),
      l.foldl (fun m q => max m q.1) a = a ∨
        ∃ p ∈ l, l.foldl (fun m q => max m q.1) a = p.1 := by
  intro l
  induction l with
  | nil => intro a; left; rfl
  | cons q rest ih =>
    intro a
    have hstep : (q :: rest).foldl (fun m q => max m q.1) a =
        rest.foldl (fun m q => max m q.1) (max a q.1) := rfl
    rcases ih (max a q.1) with h | ⟨p, hp, h⟩
    · rcases max_cases a q.1 with ⟨hmax, _⟩ | ⟨hmax, _⟩
      · left; rw [hstep, h, hmax]
      · right; exact ⟨q, List.mem_cons_self _ _, by rw [hstep, h, hmax]⟩
    · right; exact ⟨p, List.mem_cons_of_mem _ hp, by rw [hstep, h]⟩

theorem keyMin_le (l : List (Int × Nat)) (p : Int × Nat) (hp : p ∈ l) :
    keyMin l ≤ p.1 := by
  cases l with
  | nil => cases hp
  | cons q rest =>
    unfold keyMin
    rcases List.mem_cons.mp hp with rfl | hp
    · exact foldlMin_le_init _ _
    · exact foldlMin_le_mem _ _ _ hp

theorem keyMin_attained (l : List (Int × Nat)) (hne : l ≠ []) :
    ∃ p ∈ l, keyMin l = p.1 := by
  cases l with
  | nil => exact absurd rfl hne
  | cons q rest =>
    unfold keyMin
    rcases foldlMin_attained rest q.1 with h | ⟨p, hp, h⟩
    · exact ⟨q, List.mem_cons_self _ _, h⟩
    · exact ⟨p, List.mem_cons_of_mem _ hp, h⟩

theorem le_keyMax (l : List (Int × Nat)) (p : Int × Nat) (hp : p ∈ l) :
    p.1 ≤ keyMax l := by
  cases l with
  | nil => cases hp
  | cons q rest =>
    unfold keyMax
    rcases List.mem_cons.mp hp with rfl | hp
    · exact foldlMax_init_le _ _
    · exact foldlMax_mem_le _ _ _ hp

theorem keyMax_attained (l : List (Int × Nat)) (hne : l ≠ []) :
    ∃ p ∈ l, keyMax l = p.1 := by
  cases l with
  | nil => exact absurd rfl hne
  | cons q rest =>
    unfold keyMax
    rcases foldlMax_attained rest q.1 with h | ⟨p, hp, h⟩
    · exact ⟨q, List.mem_cons_self _ _, h⟩
    · exact ⟨p, List.mem_cons_of_mem _ hp, h⟩

theorem scanAux_zero (l : List (Int × Nat)) (m : Int) :
    scanAux l m 0 = (0, m) := rfl

theorem scanAux_succ (l : List (Int × Nat)) (m : Int) (n : Nat) :
    scanAux l m (n + 1) = scanStep l (scanAux l m n) (m + n) := by
  unfold scanAux
  rw [List.range_succ, List.map_append, List.foldl_append]
  simp

theorem scanStep_eq (l : List (Int × Nat)) (best : Nat × Int) (y : Int) :
    scanStep l best y =
      if best.1 < windowSum l y then (windowSum l y, y) else best := rfl

theorem scanAux_one (l : List (Int × Nat)) (m : Int) :
    scanAux l m 1 = (windowSum l m, m) := by
  have h : scanAux l m 1 = scanStep l (0, m) (m + ((0 : Nat) : Int)) := by
    rw [show (1 : Nat) = 0 + 1 from rfl, scanAux_succ, scanAux_zero]
  rw [h, scanStep_eq]
  simp only [Nat.cast_zero, add_zero]
  by_cases hs : ((0 : Nat), m).1 < windowSum l m
  · rw [if_pos hs]
  · rw [if_neg hs]
    have hs' : ¬ 0 < windowSum l m := hs
    have h0 : windowSum l m = 0 := by omega
    rw [h0]

theorem scanAux_inv (l : List (Int × Nat)) (m : Int) :
    ∀ n : Nat, 0 < n →
      (∃ j : Nat, j < n ∧ (scanAux l m n).2 = m + j) ∧
      (scanAux l m n).1 = windowSum l (scanAux l m n).2 ∧
      (∀ i : Nat, i < n → windowSum l (m + i) ≤ (scanAux l m n).1) ∧
      (∀ i : Nat, i < n → (m + i : Int) < (scanAux l m n).2 →
        windowSum l (m + i) < (scanAux l m n).1) := by
  intro n
  induction n with
  | zero => intro h; exact absurd h (lt_irrefl 0)
  | succ n ih =>
    intro _
    rcases Nat.eq_zero_or_pos n with rfl | hn
    · simp only [Nat.zero_add]
      rw [scanAux_one]
      refine ⟨⟨0, by omega, by simp⟩, rfl, ?_, ?_⟩
      · intro i hi
        have hi0 : i = 0 := by omega
        subst hi0
        simp
      · intro i hi hlt
        have hi0 : i = 0 := by omega
        subst hi0
        simp only [Nat.cast_zero, add_zero] at hlt
        exact absurd hlt (lt_irrefl m)
    · obtain ⟨⟨j, hj, hj2⟩, heq, hmax, hearly⟩ := ih hn
      rw [scanAux_succ, scanStep_eq]
      by_cases hs : (scanAux l m n).1 < windowSum l (m + n)
      · rw [if_pos hs]
        refine ⟨⟨n, by omega, rfl⟩, rfl, ?_, ?_⟩
        · intro i hi
          rcases Nat.lt_succ_iff_lt_or_eq.mp hi with hi | rfl
          · exact le_of_lt (lt_of_le_of_lt (hmax i hi) hs)
          · exact le_refl _
        · intro i hi hlt
          have hi' : i < n := by
            by_contra hc
            have hin : i = n := by omega
            subst hin
            exact absurd hlt (lt_irrefl _)
          exact lt_of_le_of_lt (hmax i hi') hs
      · rw [if_neg hs]
        refine ⟨⟨j, by omega, hj2⟩, heq, ?_, ?_⟩
        · intro i hi
          rcases Nat.lt_succ_iff_lt_or_eq.mp hi with hi | rfl
          · exact hmax i hi
          · omega
        · intro i hi hlt
          have hble : (scanAux l m n).2 ≤ m + n := by
            rw [hj2]
            have hjn : (j : Int) ≤ n := by exact_mod_cast le_of_lt hj
            omega
          have hi' : i < n := by
            by_contra hc
            have hin : i = n := by omega
            subst hin
            omega
          exact hearly i hi' hlt

theorem bestScan_spec (valid : List (Int × Nat)) (hne : valid ≠ []) :
    IsEarliestPeak valid
      (bestScan valid (keyMin valid) (keyMax valid)).2 := by
  obtain ⟨p0, hp0, _⟩ := keyMin_attained valid hne
  have hminmax : keyMin valid ≤ keyMax valid :=
    le_trans (keyMin_le valid p0 hp0) (le_keyMax valid p0 hp0)
  have hn : 0 < (keyMax valid + 1 - keyMin valid).toNat := by omega
  have hbs : bestScan valid (keyMin valid) (keyMax valid) =
      scanAux valid (keyMin valid)
        ((keyMax valid + 1 - keyMin valid).toNat) := rfl
  obtain ⟨⟨j, hj, hj2⟩, heq, hmax, hearly⟩ :=
    scanAux_inv valid (keyMin valid)
      ((keyMax valid + 1 - keyMin valid).toNat) hn
  rw [hbs]
  refine ⟨by rw [hj2]; omega, by rw [hj2]; omega, ?_, ?_⟩
  · intro y h1 h2
    have hlt : (y - keyMin valid).toNat <
        (keyMax valid + 1 - keyMin valid).toNat := by omega
    have hcast : keyMin valid + (((y - keyMin valid).toNat : Nat) : Int) =
        y := by omega
    have h := hmax (y - keyMin valid).toNat hlt
    rw [hcast] at h
    exact le_of_le_of_eq h heq
  · intro y h1 h2
    have hble : (scanAux valid (keyMin valid)
        ((keyMax valid + 1 - keyMin valid).toNat)).2 ≤ keyMax valid := by
      rw [hj2]; omega
    have hlt : (y - keyMin valid).toNat <
        (keyMax valid + 1 - keyMin valid).toNat := by omega
    have hcast : keyMin valid + (((y - keyMin valid).toNat : Nat) : Int) =
        y := by omega
    have h := hearly (y - keyMin valid).toNat hlt (by rw [hcast]; exact h2)
    rw [hcast] at h
    exact lt_of_lt_of_eq h heq

theorem listening_age_eq (ppy : List (Int × Nat)) (cy : Int)
    (h1 : ppy ≠ []) (h2 : validData ppy cy ≠ []) :
    calculate_listening_age ppy cy =
      cy - (((bestScan (validData ppy cy) (keyMin (validData ppy cy))
        (keyMax (validData ppy cy))).2 + 2) - 18) := by
  simp only [calculate_listening_age, h1, h2, if_false, ite_false]

/-- C5: on every non-degenerate input, `calculate_listening_age` scans
every integer year from the minimum to the maximum in-range year, keeps the
5-year window with the maximum sum (missing years count zero, ties keep the
earliest window), and returns `reference_year - ((best_start + 2) - 18)`;
in particular the documented five-equal-years example yields 26. -/
theorem C5_peak_era (ppy : List (Int × Nat)) (cy : Int)
    (h1 : ppy ≠ []) (h2 : validData ppy cy ≠ []) :
    (∃ b : Int, IsEarliestPeak (validData ppy cy) b ∧
      calculate_listening_age ppy cy = cy - ((b + 2) - 18)) ∧
    calculate_listening_age
      [(2015, 100), (2016, 100), (2017, 100), (2018, 100), (2019, 100)]
      2025 = 26 :=
  ⟨⟨_, bestScan_spec _ h2, listening_age_eq ppy cy h1 h2⟩, by decide⟩

theorem C5_peak_era_witness :
    (∃ b : Int, IsEarliestPeak
        (validData [(2015, 100), (2016, 100), (2017, 100), (2018, 100),
          (2019, 100)] 2025) b ∧
      calculate_listening_age
        [(2015, 100), (2016, 100), (2017, 100), (2018, 100), (2019, 100)]
        2025 = 2025 - ((b + 2) - 18)) ∧
    calculate_listening_age
      [(2015, 100), (2016, 100), (2017, 100), (2018, 100), (2019, 100)]
      2025 = 26 :=
  C5_peak_era
    [(2015, 100), (2016, 100), (2017, 100), (2018, 100), (2019, 100)]
    2025 (by decide) (by decide)

/-- C9: `calculate_listening_age` returns 0 iff the input is degenerate
(the map is empty or every year lies outside `(1900, reference_year + 1]`,
i.e. the filtered data is empty); on every non-degenerate input the result
is at least 15, because the chosen window start never exceeds the maximum
valid year, which is at most `reference_year + 1`. -/
theorem C9_degenerate_zero (ppy : List (Int × Nat)) (cy : Int) :
    (calculate_listening_age ppy cy = 0 ↔ validData ppy cy = []) ∧
    (validData ppy cy ≠ [] → 15 ≤ calculate_listening_age ppy cy) := by
  have hmain : validData ppy cy ≠ [] →
      15 ≤ calculate_listening_age ppy cy := by
    intro h2
    have h1 : ppy ≠ [] := by
      intro he
      apply h2
      rw [he]
      rfl
    rw [listening_age_eq ppy cy h1 h2]
    obtain ⟨hmb, hbM, _, _⟩ := bestScan_spec (validData ppy cy) h2
    obtain ⟨p, hp, hpe⟩ := keyMax_attained _ h2
    unfold validData at hp
    have hp' := List.mem_filter.mp hp
    have hrange : 1900 < p.1 ∧ p.1 ≤ cy + 1 := by
      simpa using hp'.2
    omega
  refine ⟨⟨?_, ?_⟩, hmain⟩
  · intro h0
    by_contra hne
    have := hmain hne
    omega
  · intro he
    by_cases h1 : ppy = [] <;>
      simp [calculate_listening_age, h1, he]

theorem C9_degenerate_zero_witness :
    ((calculate_listening_age [((2020 : Int), 3)] 2025 = 0 ↔
      validData [((2020 : Int), 3)] 2025 = []) ∧
     15 ≤ calculate_listening_age [((2020 : Int), 3)] 2025) :=
  ⟨(C9_degenerate_zero [((2020 : Int), 3)] 2025).1,
   (C9_degenerate_zero [((2020 : Int), 3)] 2025).2 (by decide)⟩

theorem lookupAssoc_of_mem_nodup {K V : Type} [DecidableEq K] :
    ∀ (m : List (K × V)), (m.map Prod.fst).Nodup →
      ∀ k v, (k, v) ∈ m → lookupAssoc m k = some v := by
  intro m
  induction m with
  | nil => intro _ k v hm; cases hm
  | cons q rest ih =>
    intro hnd k v hm
    have hnd' : (∀ x : V, (q.1, x) ∉ rest) ∧
        (rest.map Prod.fst).Nodup := by simpa using hnd
    rcases List.mem_cons.mp hm with heq | hm2
    · rw [← heq]
      unfold lookupAssoc
      simp
    · unfold lookupAssoc
      have hk : k ≠ q.1 := by
        intro hkq
        exact hnd'.1 v (by rw [← hkq]; exact hm2)
      clear hm
      cases q with
      | mk k' v' =>
        simp only at hk
        rw [if_neg hk]
        exact ih hnd'.2 k v hm2

theorem assoc_value_unique {K V : Type} [DecidableEq K]
    (m : List (K × V)) (hnd : (m.map Prod.fst).Nodup)
    (k : K) (a b : V) (ha : (k, a) ∈ m) (hb : (k, b) ∈ m) : a = b := by
  have h1 := lookupAssoc_of_mem_nodup m hnd k a ha
  have h2 := lookupAssoc_of_mem_nodup m hnd k b hb
  rw [h1] at h2
  exact (Option.some.injEq _ _ ▸ h2 :)

theorem mem_rankedRows_iff {K : Type} [DecidableEq K]
    (dict : List (K × EntityStats))
    (od : Option (List (K × EntityStats)))
    (om : String → Option PidStats) (divisor : ℚ) (row : Row K) :
    row ∈ rankedRows dict od om divisor ↔
      ∃ p ∈ dict, 0 < (diffFor om od p.1 p.2).diff_time ∧
        mkRow divisor p.1 p.2 (diffFor om od p.1 p.2) = row := by
  unfold rankedRows
  rw [List.mem_filterMap]
  constructor
  · rintro ⟨p, hp, hsome⟩
    simp only at hsome
    by_cases hc : 0 < (diffFor om od p.1 p.2).diff_time
    · rw [if_pos hc] at hsome
      exact ⟨p, hp, hc, Option.some.inj hsome⟩
    · rw [if_neg hc] at hsome
      cases hsome
  · rintro ⟨p, hp, hc, heq⟩
    refine ⟨p, hp, ?_⟩
    simp only
    rw [if_pos hc, heq]

theorem mem_skipRows_iff {K : Type} [DecidableEq K]
    (dict : List (K × EntityStats))
    (od : Option (List (K × EntityStats)))
    (om : String → Option PidStats) (divisor : ℚ) (row : Row K) :
    row ∈ skipRows dict od om divisor ↔
      ∃ p ∈ dict, 0 < (diffFor om od p.1 p.2).diff_skip ∧
        { mkRow divisor p.1 p.2 (diffFor om od p.1 p.2) with
          value := ((diffFor om od p.1 p.2).diff_skip : ℚ) } = row := by
  unfold skipRows
  rw [List.mem_filterMap]
  constructor
  · rintro ⟨p, hp, hsome⟩
    simp only at hsome
    by_cases hc : 0 < (diffFor om od p.1 p.2).diff_skip
    · rw [if_pos hc] at hsome
      exact ⟨p, hp, hc, Option.some.inj hsome⟩
    · rw [if_neg hc] at hsome
      cases hsome
  · rintro ⟨p, hp, hc, heq⟩
    refine ⟨p, hp, ?_⟩
    simp only
    rw [if_pos hc, heq]

theorem mem_newRows_iff {K : Type} [DecidableEq K]
    (dict : List (K × EntityStats))
    (od : Option (List (K × EntityStats)))
    (om : String → Option PidStats) (divisor : ℚ) (sd : Option Int)
    (row : Row K) :
    row ∈ newRows dict od om divisor sd ↔
      ∃ p ∈ dict, (0 < (diffFor om od p.1 p.2).diff_count ∧
          isNewSong sd p.2.added (diffFor om od p.1 p.2) = true) ∧
        mkRow divisor p.1 p.2 (diffFor om od p.1 p.2) = row := by
  unfold newRows
  rw [List.mem_filterMap]
  constructor
  · rintro ⟨p, hp, hsome⟩
    simp only at hsome
    by_cases hc : 0 < (diffFor om od p.1 p.2).diff_count ∧
        isNewSong sd p.2.added (diffFor om od p.1 p.2) = true
    · rw [if_pos hc] at hsome
      exact ⟨p, hp, hc, Option.some.inj hsome⟩
    · rw [if_neg hc] at hsome
      cases hsome
  · rintro ⟨p, hp, hc, heq⟩
    refine ⟨p, hp, ?_⟩
    simp only
    rw [if_pos hc, heq]

theorem key_mem_rankedRows {K : Type} [DecidableEq K]
    (dict : List (K × EntityStats))
    (od : Option (List (K × EntityStats)))
    (om : String → Option PidStats) (divisor : ℚ)
    (hnd : (dict.map Prod.fst).Nodup) (k : K) (st : EntityStats)
    (hmem : (k, st) ∈ dict) :
    (∃ row ∈ rankedRows dict od om divisor, row.key = k) ↔
      0 < (diffFor om od k st).diff_time := by
  constructor
  · rintro ⟨row, hrow, hkey⟩
    obtain ⟨p, hp, hc, heq⟩ := (mem_rankedRows_iff dict od om divisor row).mp
      hrow
    have hpk : p.1 = k := by rw [← hkey, ← heq]; rfl
    have hst : p.2 = st := by
      apply assoc_value_unique dict hnd k
      · rw [← hpk]; exact hp
      · exact hmem
    rw [← hpk, ← hst]
    exact hc
  · intro hc
    refine ⟨mkRow divisor k st (diffFor om od k st), ?_, rfl⟩
    exact (mem_rankedRows_iff dict od om divisor _).mpr ⟨(k, st), hmem, hc, rfl⟩

theorem key_mem_skipRows {K : Type} [DecidableEq K]
    (dict : List (K × EntityStats))
    (od : Option (List (K × EntityStats)))
    (om : String → Option PidStats) (divisor : ℚ)
    (hnd : (dict.map Prod.fst).Nodup) (k : K) (st : EntityStats)
    (hmem : (k, st) ∈ dict) :
    (∃ row ∈ skipRows dict od om divisor, row.key = k) ↔
      0 < (diffFor om od k st).diff_skip := by
  constructor
  · rintro ⟨row, hrow, hkey⟩
    obtain ⟨p, hp, hc, heq⟩ := (mem_skipRows_iff dict od om divisor row).mp
      hrow
    have hpk : p.1 = k := by rw [← hkey, ← heq]; rfl
    have hst : p.2 = st := by
      apply assoc_value_unique dict hnd k
      · rw [← hpk]; exact hp
      · exact hmem
    rw [← hpk, ← hst]
    exact hc
  · intro hc
    refine ⟨{ mkRow divisor k st (diffFor om od k st) with
      value := ((diffFor om od k st).diff_skip : ℚ) }, ?_, rfl⟩
    exact (mem_skipRows_iff dict od om divisor _).mpr ⟨(k, st), hmem, hc, rfl⟩

theorem key_mem_newRows {K : Type} [DecidableEq K]
    (dict : List (K × EntityStats))
    (od : Option (List (K × EntityStats)))
    (om : String → Option PidStats) (divisor : ℚ) (sd : Option Int)
    (hnd : (dict.map Prod.fst).Nodup) (k : K) (st : EntityStats)
    (hmem : (k, st) ∈ dict) :
    (∃ row ∈ newRows dict od om divisor sd, row.key = k) ↔
      (0 < (diffFor om od k st).diff_count ∧
        isNewSong sd st.added (diffFor om od k st) = true) := by
  constructor
  · rintro ⟨row, hrow, hkey⟩
    obtain ⟨p, hp, hc, heq⟩ :=
      (mem_newRows_iff dict od om divisor sd row).mp hrow
    have hpk : p.1 = k := by rw [← hkey, ← heq]; rfl
    have hst : p.2 = st := by
      apply assoc_value_unique dict hnd k
      · rw [← hpk]; exact hp
      · exact hmem
    rw [← hpk, ← hst]
    exact hc
  · intro hc
    refine ⟨mkRow divisor k st (diffFor om od k st), ?_, rfl⟩
    exact (mem_newRows_iff dict od om divisor sd _).mpr
      ⟨(k, st), hmem, hc, rfl⟩

theorem isNewSong_iff (sd added : Option Int) (d : DiffResult) :
    isNewSong sd added d = true ↔
      ((∃ s a, sd = some s ∧ added = some a ∧ s < a ∧
          d.has_id_match = false) ∨
        ((sd = none ∨ added = none) ∧ d.old_count_ref = 0 ∧
          d.has_id_match = false)) := by
  cases sd with
  | none =>
    cases added <;>
      simp [isNewSong, Bool.and_eq_true, Bool.not_eq_true',
        decide_eq_true_eq]
  | some s =>
    cases added with
    | none =>
      simp [isNewSong, Bool.and_eq_true, Bool.not_eq_true',
        decide_eq_true_eq]
    | some a =>
      simp [isNewSong, Bool.and_eq_true, Bool.not_eq_true',
        decide_eq_true_eq]

/-- C6: in each of the five categories, an entity gets a row in that
category's ranked table iff its `diff_time` is strictly positive; an entity
with `diff_time ≤ 0` appears in none of the five ranked tables.  (Keys of
each aggregation map are unique, as Python dict keys are.) -/
theorem C6_ranked_iff_diff_time_pos (nl : LibraryData)
    (ol : Option LibraryData) (sd : Option Int) (u : TimeUnit) (cy : Int)
    (h1 : (nl.artists.map Prod.fst).Nodup)
    (h2 : (nl.albums.map Prod.fst).Nodup)
    (h3 : (nl.songs.map Prod.fst).Nodup)
    (h4 : (nl.genres.map Prod.fst).Nodup)
    (h5 : (nl.years.map Prod.fst).Nodup) :
    (∀ k st, (k, st) ∈ nl.artists →
      ((∃ row ∈ (processStats nl ol sd u cy).art, row.key = k) ↔
        0 < (diffFor (omOf ol) (oldDictOf ol LibraryData.artists)
          k st).diff_time)) ∧
    (∀ k st, (k, st) ∈ nl.albums →
      ((∃ row ∈ (processStats nl ol sd u cy).alb, row.key = k) ↔
        0 < (diffFor (omOf ol) (oldDictOf ol LibraryData.albums)
          k st).diff_time)) ∧
    (∀ k st, (k, st) ∈ nl.songs →
      ((∃ row ∈ (processStats nl ol sd u cy).song, row.key = k) ↔
        0 < (diffFor (omOf ol) (oldDictOf ol LibraryData.songs)
          k st).diff_time)) ∧
    (∀ k st, (k, st) ∈ nl.genres →
      ((∃ row ∈ (processStats nl ol sd u cy).gen, row.key = k) ↔
        0 < (diffFor (omOf ol) (oldDictOf ol LibraryData.genres)
          k st).diff_time)) ∧
    (∀ k st, (k, st) ∈ nl.years →
      ((∃ row ∈ (processStats nl ol sd u cy).year_rows, row.key = k) ↔
        0 < (diffFor (omOf ol) (oldDictOf ol LibraryData.years)
          k st).diff_time)) :=
  ⟨fun k st hm => key_mem_rankedRows nl.artists _ _ _ h1 k st hm,
   fun k st hm => key_mem_rankedRows nl.albums _ _ _ h2 k st hm,
   fun k st hm => key_mem_rankedRows nl.songs _ _ _ h3 k st hm,
   fun k st hm => key_mem_rankedRows nl.genres _ _ _ h4 k st hm,
   fun k st hm => key_mem_rankedRows nl.years _ _ _ h5 k st hm⟩

theorem C6_ranked_iff_diff_time_pos_witness :
    (∃ row ∈ (processStats
        { genres := [("Rock", { count := 2, time := 500 })] } none none
        TimeUnit.hours 2025).gen, row.key = "Rock") ↔
      0 < (diffFor (omOf none) (oldDictOf none LibraryData.genres) "Rock"
        { count := 2, time := 500 }).diff_time :=
  (C6_ranked_iff_diff_time_pos
      { genres := [("Rock", { count := 2, time := 500 })] } none none
      TimeUnit.hours 2025 (by decide) (by decide) (by decide) (by decide)
      (by decide)).2.2.2.1 "Rock" { count := 2, time := 500 } (by decide)

/-- Counterexample to claim C2: when a cutoff date is supplied but the
entity has no date-added, the code falls through to the `elif` branch and
classifies the song as a new find from `old_count_ref == 0` alone, while
the claim's two cases — (a) date-added strictly after the cutoff, (b) no
cutoff supplied — both fail, so the claim predicts it is not a new find. -/
theorem C2_counterexample :
    (∃ row ∈ (processStats c2Lib none (some 100) TimeUnit.hours 2025).new_rows,
      row.key = ("S", "A")) ∧
    ¬ claimC2NewFind (some 100) c2St.added
        (diffFor (omOf none) (oldDictOf none LibraryData.songs)
          ("S", "A") c2St).old_count_ref
        (diffFor (omOf none) (oldDictOf none LibraryData.songs)
          ("S", "A") c2St).has_id_match
        (diffFor (omOf none) (oldDictOf none LibraryData.songs)
          ("S", "A") c2St).diff_count := by
  constructor
  · decide
  · rintro ⟨-, ⟨⟨s, -, a, ha, -⟩, -⟩ | ⟨hsd, -⟩⟩
    · have : (none : Option Int) = some a := ha
      cases this
    · cases hsd

/-- C2 (amended): a song-level diff with `diff_count > 0` is placed in the
new-finds table exactly when either (a) a cutoff date is supplied, the
entity *has* a date-added, that date is strictly after the cutoff, and
`has_id_match` is false, or (b) the cutoff or the date-added is absent,
`old_count_ref = 0`, and `has_id_match` is false; in particular a song
with `has_id_match` true is never classified as a new find. -/
theorem C2_new_find_amended (nl : LibraryData) (ol : Option LibraryData)
    (sd : Option Int) (u : TimeUnit) (cy : Int)
    (h : (nl.songs.map Prod.fst).Nodup) :
    ∀ k st, (k, st) ∈ nl.songs →
      ((∃ row ∈ (processStats nl ol sd u cy).new_rows, row.key = k) ↔
        (0 < (diffFor (omOf ol) (oldDictOf ol LibraryData.songs)
            k st).diff_count ∧
          ((∃ s a, sd = some s ∧ st.added = some a ∧ s < a ∧
              (diffFor (omOf ol) (oldDictOf ol LibraryData.songs)
                k st).has_id_match = false) ∨
            ((sd = none ∨ st.added = none) ∧
              (diffFor (omOf ol) (oldDictOf ol LibraryData.songs)
                k st).old_count_ref = 0 ∧
              (diffFor (omOf ol) (oldDictOf ol LibraryData.songs)
                k st).has_id_match = false)))) := by
  intro k st hmem
  have hbase := key_mem_newRows nl.songs (oldDictOf ol LibraryData.songs)
    (omOf ol) (divisorOf u) sd h k st hmem
  rw [isNewSong_iff] at hbase
  exact hbase

theorem C2_new_find_amended_witness :
    (∃ row ∈ (processStats
        { songs := [(("S", "A"),
            { count := 3, time := 3000, added := some 200 })] }
        none (some 100) TimeUnit.hours 2025).new_rows,
      row.key = (("S", "A") : String × String)) ↔
      (0 < (diffFor (omOf none) (oldDictOf none LibraryData.songs)
          ("S", "A")
          { count := 3, time := 3000, added := some 200 }).diff_count ∧
        ((∃ s a, (some (100 : Int)) = some s ∧
            ({ count := 3, time := 3000,
               added := some 200 } : EntityStats).added = some a ∧ s < a ∧
            (diffFor (omOf none) (oldDictOf none LibraryData.songs)
              ("S", "A")
              { count := 3, time := 3000,
                added := some 200 }).has_id_match = false) ∨
          (((some (100 : Int)) = none ∨
              ({ count := 3, time := 3000,
                 added := some 200 } : EntityStats).added = none) ∧
            (diffFor (omOf none) (oldDictOf none LibraryData.songs)
              ("S", "A")
              { count := 3, time := 3000,
                added := some 200 }).old_count_ref = 0 ∧
            (diffFor (omOf none) (oldDictOf none LibraryData.songs)
              ("S", "A")
              { count := 3, time := 3000,
                added := some 200 }).has_id_match = false))) :=
  C2_new_find_amended
    { songs := [(("S", "A"), { count := 3, time := 3000, added := some 200 })] }
    none (some 100) TimeUnit.hours 2025 (by decide) ("S", "A")
    { count := 3, time := 3000, added := some 200 } (by decide)

/-- C10: the skipped and new-finds tables are not gated by `diff_time > 0`:
here a song whose skip count grew but whose play time did not yields a
skipped row, a zero-length song with new plays yields a new-finds row, both
with `diff_time = 0`, while the ranked song table stays empty. -/
theorem C10_side_tables_not_time_gated :
    (processStats c10New (some c10Old) none TimeUnit.hours 2025).song =
      [] ∧
    (processStats c10New (some c10Old) none
      TimeUnit.hours 2025).skip_rows.length = 1 ∧
    (processStats c10New (some c10Old) none
      TimeUnit.hours 2025).new_rows.length = 1 ∧
    (diffFor (omOf (some c10Old)) (oldDictOf (some c10Old)
      LibraryData.songs) ("S", "A") c10SongS).diff_time = 0 ∧
    (diffFor (omOf (some c10Old)) (oldDictOf (some c10Old)
      LibraryData.songs) ("T", "B") c10SongT).diff_time = 0 := by
  decide

/-- Counterexample to claim C3: with identical old and new snapshots the
per-year play-count delta is zero everywhere, so the claimed
already-diffed, filtered series is empty and would give listening age 0 —
but `process_stats` passes the *new* snapshot's raw per-year counts and
computes age 31. -/
theorem C3_counterexample :
    playsPerYearOf c3New ≠ specDiffedYearSeries c3New (some c3Old) ∧
    (processStats c3New (some c3Old) none TimeUnit.hours 2025).age = 31 ∧
    calculate_listening_age (specDiffedYearSeries c3New (some c3Old))
      2025 = 0 := by
  decide

/-- C3 (amended): the year → play-count series handed to the listening-age
estimator is the **new** snapshot's per-year play counts filtered to
`count > 0` — not the diffed series; it is independent of the old
snapshot. -/
theorem C3_age_series_amended (nl : LibraryData) (ol : Option LibraryData)
    (sd : Option Int) (u : TimeUnit) (cy : Int) :
    (processStats nl ol sd u cy).age =
      calculate_listening_age (playsPerYearOf nl) cy ∧
    (∀ p ∈ playsPerYearOf nl, 0 < p.2) ∧
    (∀ (y : Nat) (st : EntityStats), (y, st) ∈ nl.years → 0 < st.count →
      ((y : Int), st.count) ∈ playsPerYearOf nl) := by
  refine ⟨rfl, ?_, ?_⟩
  · intro p hp
    obtain ⟨q, hq, hsome⟩ := List.mem_filterMap.mp hp
    by_cases hc : 0 < q.2.count
    · rw [if_pos hc] at hsome
      have := Option.some.inj hsome
      rw [← this]
      exact hc
    · rw [if_neg hc] at hsome
      cases hsome
  · intro y st hmem hpos
    refine List.mem_filterMap.mpr ⟨(y, st), hmem, ?_⟩
    rw [if_pos hpos]

theorem C3_age_series_amended_witness :
    ((2010 : Int), 100) ∈ playsPerYearOf c3New :=
  (C3_age_series_amended c3New (some c3Old) none TimeUnit.hours
    2025).2.2 2010 { count := 100, time := 100 } (by decide) (by decide)

/-- Counterexample to claim C4: with six genres all showing positive
play-time growth, `process_stats` returns six genre names (the source
takes `head(10)`), not at most five. -/
theorem C4_counterexample :
    ¬ (processStats c4Lib none none TimeUnit.hours
        2025).top_genres.length ≤ 5 := by
  decide

/-- C4 (amended): the genre-name list returned by `process_stats` contains
at most the top **10** genre names, the names of the first ten rows of a
count-descending ordering of the genre table (the shareable-card renderer,
not the engine, later truncates to five). -/
theorem C4_top_genres_amended (nl : LibraryData) (ol : Option LibraryData)
    (sd : Option Int) (u : TimeUnit) (cy : Int) :
    (processStats nl ol sd u cy).top_genres.length ≤ 10 ∧
    ∃ sorted : List (Row String),
      sorted.Perm (rankedRows nl.genres (oldDictOf ol LibraryData.genres)
        (omOf ol) (divisorOf u)) ∧
      List.Sorted countGE sorted ∧
      (processStats nl ol sd u cy).top_genres =
        (sorted.take 10).map Row.key := by
  constructor
  · show (((sortByCountDesc (rankedRows nl.genres
      (oldDictOf ol LibraryData.genres) (omOf ol)
      (divisorOf u))).take 10).map Row.key).length ≤ 10
    rw [List.length_map, List.length_take]
    exact min_le_left _ _
  · exact ⟨sortByCountDesc (rankedRows nl.genres
        (oldDictOf ol LibraryData.genres) (omOf ol) (divisorOf u)),
      List.perm_insertionSort _ _, List.sorted_insertionSort _ _, rfl⟩

theorem pidSumCount_congr (om1 om2 : String → Option PidStats)
    (pids : List String) (h : ∀ q ∈ pids, om1 q = om2 q) :
    pidSumCount om1 pids = pidSumCount om2 pids := by
  rw [pidSumCount_eq_sum, pidSumCount_eq_sum]
  congr 1
  exact List.map_congr_left fun q hq => by unfold countOf; rw [h q hq]

theorem pidSumCount_mono (om1 om2 : String → Option PidStats)
    (pids : List String) (h : ∀ q ∈ pids, countOf om1 q ≤ countOf om2 q) :
    pidSumCount om1 pids ≤ pidSumCount om2 pids := by
  rw [pidSumCount_eq_sum, pidSumCount_eq_sum]
  exact List.sum_le_sum fun q hq => h q hq

theorem pidSumCount_append (om : String → Option PidStats)
    (l1 l2 : List String) :
    pidSumCount om (l1 ++ l2) = pidSumCount om l1 + pidSumCount om l2 := by
  rw [pidSumCount_eq_sum, pidSumCount_eq_sum, pidSumCount_eq_sum,
    List.map_append, List.sum_append]

theorem entityPidInv_default (master : String → Option PidStats) :
    entityPidInv master {} := by
  constructor
  · exact le_refl 0
  · intro q hq
    cases hq

theorem entityPidInv_extend (master : String → Option PidStats)
    (p0 : String) (v : PidStats) (s : EntityStats)
    (hfresh : master p0 = none) (hinv : entityPidInv master s) :
    entityPidInv (fun q => if q = p0 then some v else master q) s := by
  have hne : ∀ q ∈ s.pids, q ≠ p0 := by
    intro q hq hqe
    exact hinv.2 q hq (hqe ▸ hfresh)
  constructor
  · have heq : pidSumCount (fun q => if q = p0 then some v else master q)
        s.pids = pidSumCount master s.pids := by
      apply pidSumCount_congr
      intro q hq
      rw [if_neg (hne q hq)]
    rw [heq]
    exact hinv.1
  · intro q hq
    show (if q = p0 then some v else master q) ≠ none
    rw [if_neg (hne q hq)]
    exact hinv.2 q hq

theorem entityPidInv_updateStat (master : String → Option PidStats)
    (plays play_ms skips : Nat) (pid : Option String)
    (location : Option String) (date_added : Option Int) (year : Nat)
    (s : EntityStats)
    (hpid : ∀ p, pid = some p → countOf master p ≤ plays)
    (hdom : ∀ p, pid = some p → master p ≠ none)
    (hinv : entityPidInv master s) :
    entityPidInv master
      (updateStat plays play_ms skips pid location date_added year s) := by
  cases pid with
  | none =>
    constructor
    · show pidSumCount master s.pids ≤ s.count + plays
      exact le_trans hinv.1 (Nat.le_add_right _ _)
    · exact hinv.2
  | some p =>
    by_cases hp : p ∈ s.pids
    · constructor
      · show pidSumCount master
          (if p ∈ s.pids then s.pids else s.pids ++ [p]) ≤ s.count + plays
        rw [if_pos hp]
        exact le_trans hinv.1 (Nat.le_add_right _ _)
      · show ∀ q ∈ (if p ∈ s.pids then s.pids else s.pids ++ [p]),
          master q ≠ none
        rw [if_pos hp]
        exact hinv.2
    · constructor
      · show pidSumCount master
          (if p ∈ s.pids then s.pids else s.pids ++ [p]) ≤ s.count + plays
        rw [if_neg hp, pidSumCount_append]
        have hone : pidSumCount master [p] = countOf master p := by
          rw [pidSumCount_eq_sum]
          simp
        rw [hone]
        exact Nat.add_le_add hinv.1 (hpid p rfl)
      · show ∀ q ∈ (if p ∈ s.pids then s.pids else s.pids ++ [p]),
          master q ≠ none
        rw [if_neg hp]
        intro q hq
        rcases List.mem_append.mp hq with hq | hq
        · exact hinv.2 q hq
        · have : q = p := by simpa using hq
          rw [this]
          exact hdom p rfl

theorem mapPidInv_updateAssoc {K : Type} [DecidableEq K]
    (master : String → Option PidStats) (f : EntityStats → EntityStats)
    (hf : ∀ s, entityPidInv master s → entityPidInv master (f s)) :
    ∀ (m : List (K × EntityStats)) (k : K), mapPidInv master m →
      mapPidInv master (updateAssoc m k f) := by
  intro m
  induction m with
  | nil =>
    intro k _ p hp
    unfold updateAssoc at hp
    rcases List.mem_singleton.mp hp with rfl
    exact hf _ (entityPidInv_default master)
  | cons q rest ih =>
    intro k hm p hp
    unfold updateAssoc at hp
    by_cases hk : k = q.1
    · rw [if_pos hk] at hp
      rcases List.mem_cons.mp hp with rfl | hp2
      · exact hf _ (hm q (List.mem_cons_self _ _))
      · exact hm p (List.mem_cons_of_mem _ hp2)
    · rw [if_neg hk] at hp
      rcases List.mem_cons.mp hp with rfl | hp2
      · exact hm q (List.mem_cons_self _ _)
      · exact ih k (fun r hr => hm r (List.mem_cons_of_mem _ hr)) p hp2

theorem mapPidInv_foldl {K : Type} [DecidableEq K]
    (master : String → Option PidStats) (f : EntityStats → EntityStats)
    (hf : ∀ s, entityPidInv master s → entityPidInv master (f s)) :
    ∀ (keys : List K) (m : List (K × EntityStats)), mapPidInv master m →
      mapPidInv master
        (keys.foldl (fun m a => updateAssoc m a f) m) := by
  intro keys
  induction keys with
  | nil => intro m hm; exact hm
  | cons a rest ih =>
    intro m hm
    exact ih _ (mapPidInv_updateAssoc master f hf m a hm)

theorem filterMap_pid_tail_nodup (t : TrackRecord)
    (rest : List TrackRecord)
    (hnd : ((t :: rest).filterMap TrackRecord.persistent_id).Nodup) :
    (rest.filterMap TrackRecord.persistent_id).Nodup := by
  rw [List.filterMap_cons] at hnd
  cases h : t.persistent_id with
  | none => rw [h] at hnd; exact hnd
  | some p => rw [h] at hnd; exact hnd.of_cons

theorem foldl_foldTrack_inv :
    ∀ (tracks : List TrackRecord) (d : LibraryData),
      libPidInv d →
      (∀ t ∈ tracks, ∀ p, t.persistent_id = some p →
        d.master_pid_map p = none) →
      (tracks.filterMap TrackRecord.persistent_id).Nodup →
      libPidInv (tracks.foldl foldTrack d) := by
  intro tracks
  induction tracks with
  | nil => intro d hinv _ _; exact hinv
  | cons t rest ih =>
    intro d hinv hfresh hnd
    rw [List.foldl_cons]
    have hndrest := filterMap_pid_tail_nodup t rest hnd
    by_cases hskip1 : t.podcast ∨ t.movie ∨ t.has_video
    · have hft : foldTrack d t = d := by
        unfold foldTrack
        rw [if_pos hskip1]
      rw [hft]
      exact ih d hinv
        (fun t' ht' => hfresh t' (List.mem_cons_of_mem _ ht')) hndrest
    · by_cases hskip2 : t.play_count = 0 ∧ t.skip_count = 0 ∧
          t.date_added = none
      · have hft : foldTrack d t = d := by
          unfold foldTrack
          rw [if_neg hskip1, if_pos hskip2]
        rw [hft]
        exact ih d hinv
          (fun t' ht' => hfresh t' (List.mem_cons_of_mem _ ht')) hndrest
      · have hmaster : (foldTrack d t).master_pid_map =
            (match t.persistent_id with
             | some p => fun q => if q = p
                 then some (PidStats.mk t.play_count
                   (t.play_count * t.length) t.skip_count)
                 else d.master_pid_map q
             | none => d.master_pid_map) := by
          unfold foldTrack
          rw [if_neg hskip1, if_neg hskip2]
        have hsongs : (foldTrack d t).songs =
            updateAssoc d.songs (t.name.getD "Unknown",
              t.artist.getD "Unknown")
              (updateStat t.play_count (t.play_count * t.length)
                t.skip_count t.persistent_id t.location t.date_added
                t.year) := by
          unfold foldTrack
          rw [if_neg hskip1, if_neg hskip2]
        have halbums : (foldTrack d t).albums =
            updateAssoc d.albums (t.album.getD "Unknown",
              t.album_artist.getD (t.artist.getD "Unknown"))
              (updateStat t.play_count (t.play_count * t.length)
                t.skip_count t.persistent_id t.location t.date_added
                t.year) := by
          unfold foldTrack
          rw [if_neg hskip1, if_neg hskip2]
        have hartists : (foldTrack d t).artists =
            (split_artists t.artist).foldl
              (fun m a => updateAssoc m a
                (updateStat t.play_count (t.play_count * t.length)
                  t.skip_count t.persistent_id t.location t.date_added
                  t.year)) d.artists := by
          unfold foldTrack
          rw [if_neg hskip1, if_neg hskip2]
        have hgenres : (foldTrack d t).genres =
            (match t.genre with
             | some g => updateAssoc d.genres g
                 (updateStat t.play_count (t.play_count * t.length)
                   t.skip_count t.persistent_id t.location t.date_added
                   t.year)
             | none => d.genres) := by
          unfold foldTrack
          rw [if_neg hskip1, if_neg hskip2]
        have hyears : (foldTrack d t).years =
            (if 1900 < t.year then updateAssoc d.years t.year
                (updateStat t.play_count (t.play_count * t.length)
                  t.skip_count t.persistent_id t.location t.date_added
                  t.year)
              else d.years) := by
          unfold foldTrack
          rw [if_neg hskip1, if_neg hskip2]
        -- the master map after this track, and preservation of the
        -- per-entity invariant by this track's update function
        have hkey : ∀ M : String → Option PidStats,
            (∀ p, t.persistent_id = some p →
              countOf M p ≤ t.play_count ∧ M p ≠ none) →
            mapPidInv M d.songs →
            (∀ s, entityPidInv M s → entityPidInv M
              (updateStat t.play_count (t.play_count * t.length)
                t.skip_count t.persistent_id t.location t.date_added
                t.year s)) := by
          intro M hM _ s hs
          exact entityPidInv_updateStat M _ _ _ _ _ _ _ s
            (fun p hp => (hM p hp).1) (fun p hp => (hM p hp).2) hs
        obtain ⟨hiA, hiB, hiS, hiG, hiY⟩ := hinv
        have hmain : ∀ M : String → Option PidStats,
            (foldTrack d t).master_pid_map = M →
            (∀ p, t.persistent_id = some p →
              countOf M p ≤ t.play_count ∧ M p ≠ none) →
            mapPidInv M d.artists → mapPidInv M d.albums →
            mapPidInv M d.songs → mapPidInv M d.genres →
            mapPidInv M d.years →
            libPidInv (foldTrack d t) := by
          intro M hMeq hM hA hB hS hG hY
          have hupd := hkey M hM hS
          refine ⟨?_, ?_, ?_, ?_, ?_⟩
          · rw [hMeq, hartists]
            exact mapPidInv_foldl M _ hupd _ _ hA
          · rw [hMeq, halbums]
            exact mapPidInv_updateAssoc M _ hupd _ _ hB
          · rw [hMeq, hsongs]
            exact mapPidInv_updateAssoc M _ hupd _ _ hS
          · rw [hMeq, hgenres]
            cases t.genre with
            | none => exact hG
            | some g => exact mapPidInv_updateAssoc M _ hupd _ _ hG
          · rw [hMeq, hyears]
            by_cases hy : 1900 < t.year
            · rw [if_pos hy]
              exact mapPidInv_updateAssoc M _ hupd _ _ hY
            · rw [if_neg hy]
              exact hY
        have hstep : libPidInv (foldTrack d t) := by
          cases hpid : t.persistent_id with
          | none =>
            apply hmain d.master_pid_map
            · rw [hmaster, hpid]
            · intro p hp
              rw [hpid] at hp
              cases hp
            all_goals assumption
          | some p0 =>
            have hfresh0 : d.master_pid_map p0 = none :=
              hfresh t (List.mem_cons_self _ _) p0 hpid
            apply hmain (fun q => if q = p0
              then some (PidStats.mk t.play_count
                (t.play_count * t.length) t.skip_count)
              else d.master_pid_map q)
            · rw [hmaster, hpid]
            · intro p hp
              have hpp0 : p = p0 := by
                rw [hpid] at hp
                exact (Option.some.inj hp).symm
              subst hpp0
              constructor
              · simp [countOf]
              · simp
            all_goals
              intro e he
              exact entityPidInv_extend d.master_pid_map p0 _ e.2 hfresh0
                (by first
                  | exact hiA e he
                  | exact hiB e he
                  | exact hiS e he
                  | exact hiG e he
                  | exact hiY e he)
        have hfresh' : ∀ t' ∈ rest, ∀ p, t'.persistent_id = some p →
            (foldTrack d t).master_pid_map p = none := by
          intro t' ht' p hp'
          rw [hmaster]
          cases hpid : t.persistent_id with
          | none => exact hfresh t' (List.mem_cons_of_mem _ ht') p hp'
          | some p0 =>
            show (if p = p0 then some (PidStats.mk t.play_count
              (t.play_count * t.length) t.skip_count)
              else d.master_pid_map p) = none
            have hp0mem : p0 ∉ rest.filterMap TrackRecord.persistent_id := by
              rw [List.filterMap_cons, hpid] at hnd
              exact (List.nodup_cons.mp hnd).1
            have hpmem : p ∈ rest.filterMap TrackRecord.persistent_id :=
              List.mem_filterMap.mpr ⟨t', ht', hp'⟩
            have hne : p ≠ p0 := by
              intro he
              rw [he] at hpmem
              exact hp0mem hpmem
            rw [if_neg hne]
            exact hfresh t' (List.mem_cons_of_mem _ ht') p hp'
        exact ih (foldTrack d t) hstep hfresh' hndrest

theorem buildLibrary_pid_inv (tracks : List TrackRecord)
    (hnd : (tracks.filterMap TrackRecord.persistent_id).Nodup) :
    libPidInv (buildLibrary tracks) := by
  apply foldl_foldTrack_inv tracks {}
  · refine ⟨?_, ?_, ?_, ?_, ?_⟩ <;> intro p hp <;> cases hp
  · intro t _ p _
    rfl
  · exact hnd

theorem updateAssoc_keys {K : Type} [DecidableEq K] :
    ∀ (m : List (K × EntityStats)) (k : K) (f : EntityStats → EntityStats),
      (updateAssoc m k f).map Prod.fst =
        if k ∈ m.map Prod.fst then m.map Prod.fst
        else m.map Prod.fst ++ [k] := by
  intro m
  induction m with
  | nil =>
    intro k f
    simp [updateAssoc]
  | cons q rest ih =>
    intro k f
    unfold updateAssoc
    by_cases hk : k = q.1
    · rw [if_pos hk]
      have : k ∈ (q :: rest).map Prod.fst := by
        rw [hk]
        exact List.mem_cons_self _ _
      rw [if_pos this]
      simp
    · rw [if_neg hk]
      have hmem : (k ∈ (q :: rest).map Prod.fst) ↔
          (k ∈ rest.map Prod.fst) := by
        simp only [List.map_cons, List.mem_cons]
        constructor
        · rintro (h | h)
          · exact absurd h hk
          · exact h
        · exact fun h => Or.inr h
      by_cases hk2 : k ∈ rest.map Prod.fst
      · rw [if_pos (hmem.mpr hk2)]
        simp only [List.map_cons]
        rw [ih k f, if_pos hk2]
      · rw [if_neg (fun h => hk2 (hmem.mp h))]
        simp only [List.map_cons, List.cons_append]
        rw [ih k f, if_neg hk2]

theorem updateAssoc_keysNodup {K : Type} [DecidableEq K]
    (m : List (K × EntityStats)) (k : K) (f : EntityStats → EntityStats)
    (hnd : (m.map Prod.fst).Nodup) :
    ((updateAssoc m k f).map Prod.fst).Nodup := by
  rw [updateAssoc_keys]
  by_cases hk : k ∈ m.map Prod.fst
  · rw [if_pos hk]
    exact hnd
  · rw [if_neg hk]
    simp [List.nodup_append, hnd, hk]

theorem foldl_updateAssoc_keysNodup {K : Type} [DecidableEq K]
    (f : EntityStats → EntityStats) :
    ∀ (keys : List K) (m : List (K × EntityStats)),
      (m.map Prod.fst).Nodup →
      (((keys.foldl (fun m a => updateAssoc m a f) m)).map
        Prod.fst).Nodup := by
  intro keys
  induction keys with
  | nil => intro m hm; exact hm
  | cons a rest ih =>
    intro m hm
    exact ih _ (updateAssoc_keysNodup m a f hm)

/-- All five aggregation maps built by `buildLibrary` have unique keys
(they model Python dicts). -/
theorem buildLibrary_keysNodup (tracks : List TrackRecord) :
    ((buildLibrary tracks).artists.map Prod.fst).Nodup ∧
    ((buildLibrary tracks).albums.map Prod.fst).Nodup ∧
    ((buildLibrary tracks).songs.map Prod.fst).Nodup ∧
    ((buildLibrary tracks).genres.map Prod.fst).Nodup ∧
    ((buildLibrary tracks).years.map Prod.fst).Nodup := by
  suffices h : ∀ (ts : List TrackRecord) (d : LibraryData),
      (d.artists.map Prod.fst).Nodup → (d.albums.map Prod.fst).Nodup →
      (d.songs.map Prod.fst).Nodup → (d.genres.map Prod.fst).Nodup →
      (d.years.map Prod.fst).Nodup →
      (((ts.foldl foldTrack d).artists.map Prod.fst).Nodup ∧
       ((ts.foldl foldTrack d).albums.map Prod.fst).Nodup ∧
       ((ts.foldl foldTrack d).songs.map Prod.fst).Nodup ∧
       ((ts.foldl foldTrack d).genres.map Prod.fst).Nodup ∧
       ((ts.foldl foldTrack d).years.map Prod.fst).Nodup) by
    exact h tracks {} (by simp) (by simp) (by simp) (by simp) (by simp)
  intro ts
  induction ts with
  | nil =>
    intro d h1 h2 h3 h4 h5
    exact ⟨h1, h2, h3, h4, h5⟩
  | cons t rest ih =>
    intro d h1 h2 h3 h4 h5
    rw [List.foldl_cons]
    have hall : (((foldTrack d t).artists.map Prod.fst).Nodup ∧
        ((foldTrack d t).albums.map Prod.fst).Nodup ∧
        ((foldTrack d t).songs.map Prod.fst).Nodup ∧
        ((foldTrack d t).genres.map Prod.fst).Nodup ∧
        ((foldTrack d t).years.map Prod.fst).Nodup) := by
      by_cases hs1 : t.podcast ∨ t.movie ∨ t.has_video
      · have hft : foldTrack d t = d := by
          unfold foldTrack
          rw [if_pos hs1]
        rw [hft]
        exact ⟨h1, h2, h3, h4, h5⟩
      · by_cases hs2 : t.play_count = 0 ∧ t.skip_count = 0 ∧
            t.date_added = none
        · have hft : foldTrack d t = d := by
            unfold foldTrack
            rw [if_neg hs1, if_pos hs2]
          rw [hft]
          exact ⟨h1, h2, h3, h4, h5⟩
        · simp only [foldTrack, if_neg hs1, if_neg hs2]
          refine ⟨?_, ?_, ?_, ?_, ?_⟩
          · exact foldl_updateAssoc_keysNodup _ _ _ h1
          · exact updateAssoc_keysNodup _ _ _ h2
          · exact updateAssoc_keysNodup _ _ _ h3
          · cases t.genre with
            | none => exact h4
            | some g => exact updateAssoc_keysNodup _ _ _ h4
          · by_cases hy : 1900 < t.year
            · rw [if_pos hy]
              exact updateAssoc_keysNodup _ _ _ h5
            · rw [if_neg hy]
              exact h5
    exact ih (foldTrack d t) hall.1 hall.2.1 hall.2.2.1 hall.2.2.2.1
      hall.2.2.2.2

theorem diff_count_nonneg_generic {K : Type} [DecidableEq K]
    (newMap oldMap : List (K × EntityStats))
    (oldMaster newMaster : String → Option PidStats)
    (hinv : mapPidInv newMaster newMap)
    (hnd : (newMap.map Prod.fst).Nodup)
    (hent : ∀ k o n, lookupAssoc oldMap k = some o →
      lookupAssoc newMap k = some n → o.count ≤ n.count)
    (hpid : ∀ p dOld, oldMaster p = some dOld →
      ∃ dNew, newMaster p = some dNew ∧ dOld.count ≤ dNew.count) :
    ∀ k st, (k, st) ∈ newMap →
      0 ≤ (calculate_diff st oldMaster
        (lookupAssoc oldMap k)).diff_count := by
  intro k st hmem
  cases h : lookupAssoc oldMap k with
  | none =>
    have hmono : pidSumCount oldMaster st.pids ≤
        pidSumCount newMaster st.pids := by
      apply pidSumCount_mono
      intro q _
      cases hq : oldMaster q with
      | none => simp [countOf, hq]
      | some dOld =>
        obtain ⟨dNew, hN, hle⟩ := hpid q dOld hq
        simp only [countOf, hq, hN]
        exact hle
    have hle : pidSumCount oldMaster st.pids ≤ st.count :=
      le_trans hmono ((hinv (k, st) hmem).1)
    show 0 ≤ (calculate_diff st oldMaster none).diff_count
    simp only [calculate_diff]
    omega
  | some o =>
    have hnew : lookupAssoc newMap k = some st :=
      lookupAssoc_of_mem_nodup newMap hnd k st hmem
    have hle := hent k o st h hnew
    show 0 ≤ (calculate_diff st oldMaster (some o)).diff_count
    simp only [calculate_diff]
    omega

/-- C7: when the old snapshot's play history is a prefix of the new's —
stated through its play-count components: every old entity's play count is
at most the new entity's under the same key, and every old
`master_pid_map` play count is at most the new one for the same persistent
id — `calculate_diff` yields `diff_count ≥ 0` for every entity present in
the new catalog, on both reconciliation paths.  Persistent ids are unique
across the new snapshot's tracks (one id names one catalog track). -/
theorem C7_prefix_diff_count_nonneg (oldT newT : List TrackRecord)
    (hnodup : (newT.filterMap TrackRecord.persistent_id).Nodup)
    (hpid : ∀ p dOld, (buildLibrary oldT).master_pid_map p = some dOld →
      ∃ dNew, (buildLibrary newT).master_pid_map p = some dNew ∧
        dOld.count ≤ dNew.count)
    (hart : ∀ k o n, lookupAssoc (buildLibrary oldT).artists k = some o →
      lookupAssoc (buildLibrary newT).artists k = some n →
      o.count ≤ n.count)
    (halb : ∀ k o n, lookupAssoc (buildLibrary oldT).albums k = some o →
      lookupAssoc (buildLibrary newT).albums k = some n →
      o.count ≤ n.count)
    (hsong : ∀ k o n, lookupAssoc (buildLibrary oldT).songs k = some o →
      lookupAssoc (buildLibrary newT).songs k = some n →
      o.count ≤ n.count)
    (hgen : ∀ k o n, lookupAssoc (buildLibrary oldT).genres k = some o →
      lookupAssoc (buildLibrary newT).genres k = some n →
      o.count ≤ n.count)
    (hyear : ∀ k o n, lookupAssoc (buildLibrary oldT).years k = some o →
      lookupAssoc (buildLibrary newT).years k = some n →
      o.count ≤ n.count) :
    (∀ k st, (k, st) ∈ (buildLibrary newT).artists →
      0 ≤ (calculate_diff st (buildLibrary oldT).master_pid_map
        (lookupAssoc (buildLibrary oldT).artists k)).diff_count) ∧
    (∀ k st, (k, st) ∈ (buildLibrary newT).albums →
      0 ≤ (calculate_diff st (buildLibrary oldT).master_pid_map
        (lookupAssoc (buildLibrary oldT).albums k)).diff_count) ∧
    (∀ k st, (k, st) ∈ (buildLibrary newT).songs →
      0 ≤ (calculate_diff st (buildLibrary oldT).master_pid_map
        (lookupAssoc (buildLibrary oldT).songs k)).diff_count) ∧
    (∀ k st, (k, st) ∈ (buildLibrary newT).genres →
      0 ≤ (calculate_diff st (buildLibrary oldT).master_pid_map
        (lookupAssoc (buildLibrary oldT).genres k)).diff_count) ∧
    (∀ k st, (k, st) ∈ (buildLibrary newT).years →
      0 ≤ (calculate_diff st (buildLibrary oldT).master_pid_map
        (lookupAssoc (buildLibrary oldT).years k)).diff_count) := by
  obtain ⟨iA, iB, iS, iG, iY⟩ := buildLibrary_pid_inv newT hnodup
  obtain ⟨nA, nB, nS, nG, nY⟩ := buildLibrary_keysNodup newT
  exact ⟨diff_count_nonneg_generic _ _ _ _ iA nA hart hpid,
    diff_count_nonneg_generic _ _ _ _ iB nB halb hpid,
    diff_count_nonneg_generic _ _ _ _ iS nS hsong hpid,
    diff_count_nonneg_generic _ _ _ _ iG nG hgen hpid,
    diff_count_nonneg_generic _ _ _ _ iY nY hyear hpid⟩

theorem C7_prefix_diff_count_nonneg_witness :
    0 ≤ (calculate_diff { count := 1, time := 100, pids := ["p1"] }
      (buildLibrary []).master_pid_map
      (lookupAssoc (buildLibrary []).songs
        (("S", "A") : String × String))).diff_count :=
  (C7_prefix_diff_count_nonneg []
      [{ play_count := 1, length := 100, artist := some "A",
         name := some "S", persistent_id := some "p1" }]
      (by decide)
      (fun p dOld h => Option.noConfusion h)
      (fun k o n h _ => Option.noConfusion h)
      (fun k o n h _ => Option.noConfusion h)
      (fun k o n h _ => Option.noConfusion h)
      (fun k o n h _ => Option.noConfusion h)
      (fun k o n h _ => Option.noConfusion h)).2.2.1
    ("S", "A") { count := 1, time := 100, pids := ["p1"] } (by decide)
